import Mathlib

/-!
Verification of the Game-of-Life `Universe` engine (`src/lib.rs`).

The Rust source is shallowly embedded: `Cell`, `UniverseEdgeMode` and
`Universe` mirror the Rust types (machine integers become `Nat`; the cell
buffer becomes a `List Cell`); `get_index`, `live_neighbor_count`, `new`,
`tick` and `render` are translated statement by statement.  The `tick`
double loop that writes `next_cells[index] = next` becomes a `foldl` of
`List.set` over the loop's iteration pairs, reading only from the pre-tick
buffer, exactly as the source does.  The `unimplemented!()` panic reached
when `edge_mode == Expand` is modelled as an `Except.error`.
-/

namespace GoL

/-- Rust `enum Cell { Dead = 0, Alive = 1 }`. -/
inductive Cell where
  | Dead : Cell
  | Alive : Cell
deriving DecidableEq, Repr

/-- The discriminant of `Cell` (`cell as u8` in the source). -/
def Cell.toNat : Cell → Nat
  | .Dead => 0
  | .Alive => 1

instance {ε α : Type} [DecidableEq ε] [DecidableEq α] : DecidableEq (Except ε α) := fun a b =>
  match a, b with
  | .error e, .error f =>
      if h : e = f then .isTrue (by rw [h]) else .isFalse (fun c => h (by injection c))
  | .error _, .ok _ => .isFalse (fun c => Except.noConfusion c)
  | .ok _, .error _ => .isFalse (fun c => Except.noConfusion c)
  | .ok a, .ok b =>
      if h : a = b then .isTrue (by rw [h]) else .isFalse (fun c => h (by injection c))

/-- Rust `enum UniverseEdgeMode { FixedAlive, FixedDead, Wrap, Expand }`. -/
inductive UniverseEdgeMode where
  | FixedAlive : UniverseEdgeMode
  | FixedDead : UniverseEdgeMode
  | Wrap : UniverseEdgeMode
  | Expand : UniverseEdgeMode
deriving DecidableEq, Repr

/-- Rust `struct Universe { width, height, cells, edge_mode }`. -/
structure Universe where
  width : Nat
  height : Nat
  cells : List Cell
  edge_mode : UniverseEdgeMode
deriving DecidableEq, Repr

/-- `fn get_index(&self, row, column) -> usize { (row * self.height + column) as usize }`. -/
def Universe.get_index (u : Universe) (row column : Nat) : Nat :=
  row * u.height + column

/-- The `edge` test computed inside `live_neighbor_count`:
`*dx > 1 && row == 0 || *dy > 1 && column == 0 || *dx == 1 && x < row || *dy == 1 && y < column`
where `x = (row + dx) % width` and `y = (column + dy) % height`. -/
def edgeFlag (w h row col dx dy : Nat) : Prop :=
  (1 < dx ∧ row = 0) ∨ (1 < dy ∧ col = 0) ∨
    (dx = 1 ∧ (row + dx) % w < row) ∨ (dy = 1 ∧ (col + dy) % h < col)

instance (w h row col dx dy : Nat) : Decidable (edgeFlag w h row col dx dy) := by
  unfold edgeFlag
  exact inferInstance

/-- The body of one iteration of the `live_neighbor_count` loop: the 0/1
contribution (`cell_status as u8`) of the neighbor reached with the wrapped
deltas `dx`, `dy`. -/
def Universe.neighborContrib (u : Universe) (row col dx dy : Nat) : Nat :=
  let x := (row + dx) % u.width
  let y := (col + dy) % u.height
  let index := u.get_index x y
  let cell_status : Cell :=
    match u.edge_mode with
    | .FixedAlive =>
        if edgeFlag u.width u.height row col dx dy then Cell.Alive
        else u.cells.getD index Cell.Dead
    | .FixedDead =>
        if edgeFlag u.width u.height row col dx dy then Cell.Dead
        else u.cells.getD index Cell.Dead
    | _ => u.cells.getD index Cell.Dead
  cell_status.toNat

/-- `fn live_neighbor_count(&self, row, column) -> u8`: fold over
`x_deltas = [width-1, 0, 1]` and `y_deltas = [height-1, 0, 1]`, skipping the
`(0, 0)` pair (`continue`) and accumulating the neighbor contributions. -/
def Universe.live_neighbor_count (u : Universe) (row col : Nat) : Nat :=
  [u.width - 1, 0, 1].foldl (fun count dx =>
    [u.height - 1, 0, 1].foldl (fun count dy =>
      if dx = 0 ∧ dy = 0 then count
      else count + u.neighborContrib row col dx dy) count) 0

/-- `pub fn new() -> Universe`: fixed 128×128 grid, cell `i` alive iff
`i % 2 == 0 || i % 7 == 0`, edge mode `Wrap`. -/
def Universe.new : Universe :=
  { width := 128
    height := 128
    cells := (List.range (128 * 128)).map (fun i =>
      if i % 2 = 0 ∨ i % 7 = 0 then Cell.Alive else Cell.Dead)
    edge_mode := .Wrap }

/-- The failure raised by `tick`: the `unimplemented!()` panic reached when
`edge_mode == Expand`, modelled as a catchable error value. -/
inductive TickError where
  | unimplemented : TickError
deriving DecidableEq, Repr

/-- The `match live_neighbors { 0...1 => Dead, 2 => me, 3 => Alive, _ => Dead }`
transition rule applied per cell inside `tick`. -/
def tickRule (me : Cell) (n : Nat) : Cell :=
  if n ≤ 1 then Cell.Dead
  else if n = 2 then me
  else if n = 3 then Cell.Alive
  else Cell.Dead

/-- The iteration domain of the `tick` double loop:
`for x in 0..width { for y in 0..height { ... } }`, in loop order. -/
def Universe.tickPairs (u : Universe) : List (Nat × Nat) :=
  (List.range u.width) ×ˢ (List.range u.height)

/-- The `next_cells` buffer built by the `tick` double loop: it starts as a
clone of `cells` and each iteration writes
`next_cells[get_index(x, y)] = rule(cells[index], live_neighbor_count(x, y))`,
reading only the pre-tick `cells`. -/
def Universe.nextCells (u : Universe) : List Cell :=
  u.tickPairs.foldl (fun acc p =>
    acc.set (u.get_index p.1 p.2)
      (tickRule (u.cells.getD (u.get_index p.1 p.2) Cell.Dead)
        (u.live_neighbor_count p.1 p.2))) u.cells

/-- `pub fn tick(&mut self)`: on `Expand` the source hits `unimplemented!()`
(modelled as an error, the buffer untouched); otherwise `cells` is replaced
wholesale by the freshly computed `next_cells` buffer. -/
def Universe.tick (u : Universe) : Except TickError Universe :=
  match u.edge_mode with
  | .Expand => .error .unimplemented
  | _ => .ok { u with cells := u.nextCells }

/-- The glyph chosen by `impl fmt::Display for Universe`. -/
def glyph : Cell → Char
  | .Dead => '◻'
  | .Alive => '◼'

/-- `self.cells.as_slice().chunks(self.width)`: successive `width`-sized
chunks of the buffer.  The fuel argument (instantiated with the buffer
length, an upper bound on the number of chunks) makes the recursion
structural. -/
def chunksAux (w : Nat) : Nat → List Cell → List (List Cell)
  | 0, _ => []
  | _ + 1, [] => []
  | fuel + 1, c :: cs => ((c :: cs).take w) :: chunksAux w fuel ((c :: cs).drop w)

/-- `pub fn render(&self) -> String` via the `Display` instance: for each
chunk, one glyph per cell followed by `"\n"`. -/
def Universe.render (u : Universe) : String :=
  String.join ((chunksAux u.width u.cells.length u.cells).map
    (fun line => String.mk (line.map glyph) ++ "\n"))

/-- Modelled from the spec (§4.5), for comparison with `render`: one line per
grid row `r`, the glyph of cell `(r, c)` for each column `c` in order with no
separator, each row terminated by a newline and nothing after the final
newline. -/
def Universe.renderSpec (u : Universe) : String :=
  String.join ((List.range u.height).map (fun r =>
    String.mk ((List.range u.width).map
      (fun c => glyph (u.cells.getD (r * u.width + c) Cell.Dead))) ++ "\n"))

/-- An unwrapped Moore-neighborhood delta in one dimension: −1, 0 or +1. -/
inductive Delta where
  | back : Delta
  | stay : Delta
  | fwd : Delta
deriving DecidableEq, Repr

/-- The encoding of a delta actually iterated over by the source:
`[size - 1, 0, 1]` stands for `[-1, 0, +1]`. -/
def Delta.enc (size : Nat) : Delta → Nat
  | .back => size - 1
  | .stay => 0
  | .fwd => 1

/-- The delta as the signed integer it stands for. -/
def Delta.unwrapped : Delta → Int
  | .back => -1
  | .stay => 0
  | .fwd => 1

/-- The unwrapped step from `coord` leaves the valid range `[0, size)`. -/
def crossesEdge (size coord : Nat) (d : Delta) : Prop :=
  ((coord : Int) + d.unwrapped < 0) ∨ ((size : Int) ≤ (coord : Int) + d.unwrapped)

instance (size coord : Nat) (d : Delta) : Decidable (crossesEdge size coord d) := by
  unfold crossesEdge
  exact inferInstance

/-! ## Basic helper lemmas -/

lemma getD_range_map (f : Nat → Cell) {n i : Nat} (d : Cell) (h : i < n) :
    ((List.range n).map f).getD i d = f i := by
  rw [List.getD_eq_getElem?_getD, List.getElem?_map, List.getElem?_range h]
  rfl

lemma mod_back_eq {size x : Nat} (hx : x < size) :
    (x + (size - 1)) % size = if x = 0 then size - 1 else x - 1 := by
  by_cases h0 : x = 0
  · subst h0
    simp only [if_pos rfl, Nat.zero_add]
    exact Nat.mod_eq_of_lt (by omega)
  · rw [if_neg h0]
    have hrw : x + (size - 1) = (x - 1) + size := by omega
    rw [hrw, Nat.add_mod_right]
    exact Nat.mod_eq_of_lt (by omega)

lemma mod_fwd_eq {size x : Nat} (hx : x < size) :
    (x + 1) % size = if x + 1 = size then 0 else x + 1 := by
  by_cases h1 : x + 1 = size
  · rw [if_pos h1, h1, Nat.mod_self]
  · rw [if_neg h1]
    exact Nat.mod_eq_of_lt (by omega)

lemma mod_stay_eq {size x : Nat} (hx : x < size) : (x + 0) % size = x := by
  rw [Nat.add_zero]
  exact Nat.mod_eq_of_lt hx

lemma get_index_lt {u : Universe} {r c : Nat} (hr : r < u.width) (hc : c < u.height) :
    u.get_index r c < u.width * u.height := by
  unfold Universe.get_index
  calc r * u.height + c < r * u.height + u.height := Nat.add_lt_add_left hc _
    _ = (r + 1) * u.height := by ring
    _ ≤ u.width * u.height := Nat.mul_le_mul_right _ hr

lemma get_index_inj {u : Universe} {r₁ c₁ r₂ c₂ : Nat}
    (hc₁ : c₁ < u.height) (hc₂ : c₂ < u.height)
    (h : u.get_index r₁ c₁ = u.get_index r₂ c₂) : r₁ = r₂ ∧ c₁ = c₂ := by
  unfold Universe.get_index at h
  rw [Nat.mul_comm r₁ u.height, Nat.mul_comm r₂ u.height] at h
  have hcc : c₁ = c₂ := by
    have h₁ := Nat.mul_add_mod u.height r₁ c₁
    have h₂ := Nat.mul_add_mod u.height r₂ c₂
    rw [Nat.mod_eq_of_lt hc₁] at h₁
    rw [Nat.mod_eq_of_lt hc₂] at h₂
    rw [← h₁, ← h₂, h]
  refine ⟨?_, hcc⟩
  subst hcc
  have hh : 0 < u.height := Nat.pos_of_ne_zero (by omega)
  have hmm : u.height * r₁ = u.height * r₂ := by omega
  exact Nat.eq_of_mul_eq_mul_left hh hmm

/-- The amount one iteration of the `live_neighbor_count` loop adds to the
accumulator: `0` for the skipped `(0, 0)` pair, the neighbor contribution
otherwise. -/
def Universe.skipContrib (u : Universe) (row col dx dy : Nat) : Nat :=
  if dx = 0 ∧ dy = 0 then 0 else u.neighborContrib row col dx dy

lemma cell_toNat_le_one (c : Cell) : c.toNat ≤ 1 := by
  cases c <;> decide

lemma neighborContrib_le_one (u : Universe) (row col dx dy : Nat) :
    u.neighborContrib row col dx dy ≤ 1 := by
  unfold Universe.neighborContrib
  cases u.edge_mode <;> dsimp only <;> (try split_ifs) <;> exact cell_toNat_le_one _

lemma skipContrib_le_one (u : Universe) (row col dx dy : Nat) :
    u.skipContrib row col dx dy ≤ 1 := by
  unfold Universe.skipContrib
  split_ifs
  · omega
  · exact neighborContrib_le_one u row col dx dy

lemma foldl_add_map (g : Nat → Nat) :
    ∀ (l : List Nat) (acc : Nat),
      l.foldl (fun c d => c + g d) acc = acc + (l.map g).sum := by
  intro l
  induction l with
  | nil => intro acc; simp
  | cons d l ih =>
      intro acc
      simp only [List.foldl_cons, List.map_cons, List.sum_cons, ih]
      omega

/-- `live_neighbor_count` is the sum of the eight per-neighbor contributions
(the `(0, 0)` pair contributes nothing by the `continue`). -/
lemma lnc_eq_sum (u : Universe) (row col : Nat) :
    u.live_neighbor_count row col =
      u.skipContrib row col (u.width - 1) (u.height - 1) +
      u.skipContrib row col (u.width - 1) 0 +
      u.skipContrib row col (u.width - 1) 1 +
      u.skipContrib row col 0 (u.height - 1) +
      u.skipContrib row col 0 1 +
      u.skipContrib row col 1 (u.height - 1) +
      u.skipContrib row col 1 0 +
      u.skipContrib row col 1 1 := by
  have hstep : ∀ dx count dy,
      (if dx = 0 ∧ dy = 0 then count else count + u.neighborContrib row col dx dy) =
        count + u.skipContrib row col dx dy := by
    intro dx count dy
    unfold Universe.skipContrib
    split_ifs <;> omega
  have hzero : u.skipContrib row col 0 0 = 0 := by
    unfold Universe.skipContrib
    simp
  unfold Universe.live_neighbor_count
  simp only [hstep, List.foldl_cons, List.foldl_nil, hzero]
  omega

lemma lnc_le_8 (u : Universe) (row col : Nat) :
    u.live_neighbor_count row col ≤ 8 := by
  rw [lnc_eq_sum]
  have h1 := skipContrib_le_one u row col (u.width - 1) (u.height - 1)
  have h2 := skipContrib_le_one u row col (u.width - 1) 0
  have h3 := skipContrib_le_one u row col (u.width - 1) 1
  have h4 := skipContrib_le_one u row col 0 (u.height - 1)
  have h5 := skipContrib_le_one u row col 0 1
  have h6 := skipContrib_le_one u row col 1 (u.height - 1)
  have h7 := skipContrib_le_one u row col 1 0
  have h8 := skipContrib_le_one u row col 1 1
  omega

/-- On grids at least 3 wide and 3 high, the source's `edge` expression is
true exactly when the unwrapped delta leaves the grid. -/
lemma edgeFlag_iff_cross {w h : Nat} (hw : 3 ≤ w) (hh : 3 ≤ h) {row col : Nat}
    (hrow : row < w) (hcol : col < h) (dr dc : Delta) :
    edgeFlag w h row col (dr.enc w) (dc.enc h) ↔
      (crossesEdge w row dr ∨ crossesEdge h col dc) := by
  cases dr <;> cases dc <;>
    simp only [Delta.enc, Delta.unwrapped, edgeFlag, crossesEdge,
      mod_back_eq hrow, mod_fwd_eq hrow, mod_stay_eq hrow,
      mod_back_eq hcol, mod_fwd_eq hcol, mod_stay_eq hcol] <;>
    first
      | (split_ifs <;>
          simp only [true_and, and_true, false_and, and_false, or_false, false_or,
            Nat.lt_irrefl] <;>
          omega)
      | omega

/-! ## C2: the `edge` flag versus true edge crossings -/

/-- A 2×2 universe used to exhibit the degenerate-width behavior of the
`edge` test (`width - 1` collides with the forward delta `1`). -/
def uTwo : Universe :=
  { width := 2
    height := 2
    cells := [Cell.Dead, Cell.Dead, Cell.Dead, Cell.Dead]
    edge_mode := .FixedAlive }

/-- C2 counterexample: on a 2×2 grid the backward delta is encoded as
`width - 1 = 1`, and from `row = 1` the computed `edge` flag is true although
the unwrapped step `-1` stays inside `[0, width)`. -/
theorem edge_flag_spec_counterexample :
    edgeFlag uTwo.width uTwo.height 1 0 (Delta.enc uTwo.width .back)
      (Delta.enc uTwo.height .stay) ∧
    ¬ (crossesEdge uTwo.width 1 .back ∨ crossesEdge uTwo.height 0 .stay) := by
  decide

/-- C2 (amended with `3 ≤ width` and `3 ≤ height`, which make the encodings
`width-1`, `0`, `1` of the deltas distinct): for every in-range `(row, col)`
and every non-`(0,0)` Moore delta pair, the `edge` flag computed by
`live_neighbor_count` is true exactly when the unwrapped delta leaves
`[0, width)` or `[0, height)`. -/
theorem edge_flag_spec (u : Universe) (row col : Nat) (dr dc : Delta)
    (hw : 3 ≤ u.width) (hh : 3 ≤ u.height)
    (hrow : row < u.width) (hcol : col < u.height)
    (hnz : ¬(dr = .stay ∧ dc = .stay)) :
    edgeFlag u.width u.height row col (dr.enc u.width) (dc.enc u.height) ↔
      (crossesEdge u.width row dr ∨ crossesEdge u.height col dc) :=
  edgeFlag_iff_cross hw hh hrow hcol dr dc

/-- A 3×3 all-dead `Wrap` universe used as a concrete witness instance. -/
def uThree : Universe :=
  { width := 3
    height := 3
    cells := List.replicate 9 Cell.Dead
    edge_mode := .Wrap }

/-- Witness for C2 (amended) at a concrete universe, coordinate and delta
pair: stepping backward from row 0 crosses the edge and the flag agrees. -/
theorem edge_flag_spec_witness :
    (3 ≤ uThree.width) ∧ (3 ≤ uThree.height) ∧
    (edgeFlag uThree.width uThree.height 0 1 (Delta.enc uThree.width .back)
        (Delta.enc uThree.height .stay) ↔
      (crossesEdge uThree.width 0 .back ∨ crossesEdge uThree.height 1 .stay)) :=
  ⟨by decide, by decide,
    edge_flag_spec uThree 0 1 .back .stay (by decide) (by decide) (by decide)
      (by decide) (by decide)⟩

/-! ## C3: per-neighbor contributions under each edge mode -/

/-- C3 counterexample: on the 2×2 `FixedAlive` universe `uTwo`, stepping
backward from row 0 does cross the true grid edge, yet the neighbor's
contribution is `0` (the buffer cell), not `1`, because the computed `edge`
flag misses this crossing when `width = 2`. -/
theorem neighbor_contribution_counterexample :
    uTwo.edge_mode = .FixedAlive ∧
    crossesEdge uTwo.width 0 .back ∧
    uTwo.neighborContrib 0 0 (Delta.enc uTwo.width .back)
      (Delta.enc uTwo.height .stay) = 0 := by
  decide

/-- C3 (amended with `3 ≤ width` and `3 ≤ height`): a neighbor whose
unwrapped delta crosses the true grid edge contributes `1` under `FixedAlive`
and `0` under `FixedDead` regardless of the buffer; under `Wrap` every
neighbor (edge or not) contributes the buffer cell at the wrapped position;
and the total count is at most 8. -/
theorem neighbor_contribution (u : Universe) (row col : Nat) (dr dc : Delta)
    (hw : 3 ≤ u.width) (hh : 3 ≤ u.height)
    (hrow : row < u.width) (hcol : col < u.height) :
    (crossesEdge u.width row dr ∨ crossesEdge u.height col dc →
      (u.edge_mode = .FixedAlive →
        u.neighborContrib row col (dr.enc u.width) (dc.enc u.height) = 1) ∧
      (u.edge_mode = .FixedDead →
        u.neighborContrib row col (dr.enc u.width) (dc.enc u.height) = 0)) ∧
    (u.edge_mode = .Wrap →
      u.neighborContrib row col (dr.enc u.width) (dc.enc u.height) =
        (u.cells.getD
          (u.get_index ((row + dr.enc u.width) % u.width)
            ((col + dc.enc u.height) % u.height)) Cell.Dead).toNat) ∧
    u.live_neighbor_count row col ≤ 8 := by
  refine ⟨fun hcross => ?_, fun hmode => ?_, lnc_le_8 u row col⟩
  · have hflag : edgeFlag u.width u.height row col (dr.enc u.width) (dc.enc u.height) :=
      (edgeFlag_iff_cross hw hh hrow hcol dr dc).mpr hcross
    constructor
    · intro hmode
      unfold Universe.neighborContrib
      rw [hmode]
      simp only [if_pos hflag]
      rfl
    · intro hmode
      unfold Universe.neighborContrib
      rw [hmode]
      simp only [if_pos hflag]
      rfl
  · unfold Universe.neighborContrib
    rw [hmode]

/-- Witness for C3 (amended) on the all-dead 3×3 `Wrap` universe: the wrapped
neighbor read and the count bound, at corner `(0, 0)` with delta `(-1, -1)`. -/
theorem neighbor_contribution_witness :
    uThree.neighborContrib 0 0 (Delta.enc uThree.width .back)
        (Delta.enc uThree.height .back) =
      (uThree.cells.getD
        (uThree.get_index ((0 + Delta.enc uThree.width .back) % uThree.width)
          ((0 + Delta.enc uThree.height .back) % uThree.height)) Cell.Dead).toNat ∧
    uThree.live_neighbor_count 0 0 ≤ 8 :=
  ⟨(neighbor_contribution uThree 0 0 .back .back (by decide) (by decide)
      (by decide) (by decide)).2.1 rfl,
    (neighbor_contribution uThree 0 0 .back .back (by decide) (by decide)
      (by decide) (by decide)).2.2⟩

/-! ## C5: `get_index` is a bijection onto `[0, width*height)` -/

/-- C5: for all coordinates with `row < width` and `column < height`,
`get_index` returns an offset in `[0, width*height)`, the mapping is
injective on such pairs, and every offset in the range is hit. -/
theorem get_index_bijection (u : Universe) :
    (∀ r c, r < u.width → c < u.height → u.get_index r c < u.width * u.height) ∧
    (∀ r₁ c₁ r₂ c₂, r₁ < u.width → c₁ < u.height → r₂ < u.width → c₂ < u.height →
      u.get_index r₁ c₁ = u.get_index r₂ c₂ → r₁ = r₂ ∧ c₁ = c₂) ∧
    (∀ i, i < u.width * u.height →
      ∃ r c, r < u.width ∧ c < u.height ∧ u.get_index r c = i) := by
  refine ⟨fun r c hr hc => get_index_lt hr hc,
    fun r₁ c₁ r₂ c₂ _ hc₁ _ hc₂ h => get_index_inj hc₁ hc₂ h,
    fun i hi => ?_⟩
  have hh : 0 < u.height := by
    rcases Nat.eq_zero_or_pos u.height with h0 | h0
    · rw [h0, Nat.mul_zero] at hi; omega
    · exact h0
  refine ⟨i / u.height, i % u.height, ?_, Nat.mod_lt _ hh, ?_⟩
  · rw [Nat.div_lt_iff_lt_mul hh]
    exact hi
  · unfold Universe.get_index
    rw [Nat.mul_comm]
    exact Nat.div_add_mod i u.height

/-- Witness for C5 at a concrete universe and concrete coordinates. -/
theorem get_index_bijection_witness :
    Universe.new.get_index 3 5 < Universe.new.width * Universe.new.height ∧
    (3 : Nat) < Universe.new.width ∧ (5 : Nat) < Universe.new.height :=
  ⟨(get_index_bijection Universe.new).1 3 5 (by decide) (by decide), by decide, by decide⟩

/-! ## C6: `new` is deterministic with the documented seed -/

/-- C6: `new()` always returns the 128×128 universe in `Wrap` mode whose
buffer has length `width*height` and whose cell `i` is `Alive` exactly when
`i % 2 = 0` or `i % 7 = 0`; being a total function of no arguments, it is
deterministic and never fails. -/
theorem new_spec :
    Universe.new.width = 128 ∧ Universe.new.height = 128 ∧
    Universe.new.edge_mode = .Wrap ∧
    Universe.new.cells.length = Universe.new.width * Universe.new.height ∧
    ∀ i, i < Universe.new.width * Universe.new.height →
      Universe.new.cells.getD i Cell.Dead =
        (if i % 2 = 0 ∨ i % 7 = 0 then Cell.Alive else Cell.Dead) := by
  refine ⟨rfl, rfl, rfl, by simp [Universe.new], fun i hi => ?_⟩
  simp only [Universe.new] at hi ⊢
  exact getD_range_map _ _ hi

/-- Witness for C6: concrete seeded cells (`14` is even, `9` is neither even
nor a multiple of 7). -/
theorem new_spec_witness :
    Universe.new.cells.getD 14 Cell.Dead = Cell.Alive ∧
    Universe.new.cells.getD 9 Cell.Dead = Cell.Dead := by
  constructor
  · rw [new_spec.2.2.2.2 14 (by decide)]
    decide
  · rw [new_spec.2.2.2.2 9 (by decide)]
    decide

/-! ## Machinery for the `tick` double loop -/

lemma foldl_set_length (f : Nat × Nat → Nat) (g : Nat × Nat → Cell) :
    ∀ (l : List (Nat × Nat)) (init : List Cell),
      (l.foldl (fun acc p => acc.set (f p) (g p)) init).length = init.length := by
  intro l
  induction l with
  | nil => intro init; rfl
  | cons p l ih =>
      intro init
      rw [List.foldl_cons, ih, List.length_set]

lemma foldl_set_getD_not_mem (f : Nat × Nat → Nat) (g : Nat × Nat → Cell) :
    ∀ (l : List (Nat × Nat)) (init : List Cell) (i : Nat) (d : Cell),
      (∀ p ∈ l, f p ≠ i) →
      (l.foldl (fun acc p => acc.set (f p) (g p)) init).getD i d = init.getD i d := by
  intro l
  induction l with
  | nil => intro init i d _; rfl
  | cons p l ih =>
      intro init i d hne
      rw [List.foldl_cons, ih _ _ _ (fun q hq => hne q (List.mem_cons_of_mem _ hq)),
        List.getD_eq_getElem?_getD, List.getD_eq_getElem?_getD,
        List.getElem?_set_ne (hne p (List.mem_cons_self _ _))]

lemma mem_tickPairs {u : Universe} {p : Nat × Nat} :
    p ∈ u.tickPairs ↔ p.1 < u.width ∧ p.2 < u.height := by
  unfold Universe.tickPairs
  cases p with
  | mk a b => simp [List.mem_product, List.mem_range]

lemma nodup_tickPairs (u : Universe) : u.tickPairs.Nodup :=
  (List.nodup_range _).product (List.nodup_range _)

/-- The value of the `next_cells` buffer at each valid position: the source
rule applied to the pre-tick cell and its pre-tick neighbor count. -/
lemma nextCells_getD (u : Universe) (hlen : u.cells.length = u.width * u.height)
    {x y : Nat} (hx : x < u.width) (hy : y < u.height) :
    u.nextCells.getD (u.get_index x y) Cell.Dead =
      tickRule (u.cells.getD (u.get_index x y) Cell.Dead)
        (u.live_neighbor_count x y) := by
  obtain ⟨l₁, l₂, hsplit⟩ :=
    List.append_of_mem ((mem_tickPairs (u := u) (p := (x, y))).mpr ⟨hx, hy⟩)
  have hnodup := nodup_tickPairs u
  rw [hsplit] at hnodup
  have hxy_not : (x, y) ∉ l₂ :=
    (List.nodup_cons.mp (List.nodup_append.mp hnodup).2.1).1
  have hafter : ∀ p ∈ l₂, u.get_index p.1 p.2 ≠ u.get_index x y := by
    intro p hp heq
    have hpmem : p ∈ u.tickPairs := by
      rw [hsplit]
      exact List.mem_append.mpr (Or.inr (List.mem_cons_of_mem _ hp))
    have hpwh := mem_tickPairs.mp hpmem
    obtain ⟨h1, h2⟩ := get_index_inj hpwh.2 hy heq
    exact hxy_not (by cases p; simp_all)
  unfold Universe.nextCells
  rw [hsplit, List.foldl_append, List.foldl_cons]
  rw [foldl_set_getD_not_mem (fun p => u.get_index p.1 p.2)
    (fun p => tickRule (u.cells.getD (u.get_index p.1 p.2) Cell.Dead)
      (u.live_neighbor_count p.1 p.2)) l₂ _ _ _ hafter]
  have hlt : u.get_index x y <
      (l₁.foldl (fun acc p => acc.set (u.get_index p.1 p.2)
        (tickRule (u.cells.getD (u.get_index p.1 p.2) Cell.Dead)
          (u.live_neighbor_count p.1 p.2))) u.cells).length := by
    rw [foldl_set_length (fun p => u.get_index p.1 p.2)
      (fun p => tickRule (u.cells.getD (u.get_index p.1 p.2) Cell.Dead)
        (u.live_neighbor_count p.1 p.2)) l₁ u.cells, hlen]
    exact get_index_lt hx hy
  rw [List.getD_eq_getElem?_getD, List.getElem?_set_eq_of_lt _ hlt]
  rfl

lemma nextCells_length (u : Universe) : u.nextCells.length = u.cells.length :=
  foldl_set_length (fun p => u.get_index p.1 p.2)
    (fun p => tickRule (u.cells.getD (u.get_index p.1 p.2) Cell.Dead)
      (u.live_neighbor_count p.1 p.2)) u.tickPairs u.cells

/-- `tick` on a non-`Expand` universe succeeds and swaps in `nextCells`. -/
lemma tick_eq_ok (u : Universe) (hmode : u.edge_mode ≠ .Expand) :
    u.tick = .ok { u with cells := u.nextCells } := by
  unfold Universe.tick
  cases hm : u.edge_mode <;> simp_all

/-- Inversion for a successful `tick`. -/
lemma tick_ok_inv {u next : Universe} (h : u.tick = .ok next) :
    u.edge_mode ≠ .Expand ∧ next = { u with cells := u.nextCells } := by
  unfold Universe.tick at h
  cases hm : u.edge_mode <;> rw [hm] at h <;> simp_all

/-! ## C1: one `tick` applies the standard rule from the pre-tick buffer -/

/-- C1: for every universe whose edge mode is not `Expand` (and whose buffer
has the invariant length), `tick` succeeds and the new buffer holds, at every
valid `(row, column)`, exactly `tickRule` — live-neighbor count 0 or 1 gives
`Dead`, 2 keeps the cell, 3 gives `Alive`, 4 or more gives `Dead` — evaluated
on the pre-tick cell and the pre-tick neighbor count (the right-hand side
reads only `u.cells`, never the buffer under construction). -/
theorem tick_spec (u : Universe) (hmode : u.edge_mode ≠ .Expand)
    (hlen : u.cells.length = u.width * u.height) :
    ∃ next, u.tick = .ok next ∧
      next.cells.length = u.cells.length ∧
      ∀ x y, x < u.width → y < u.height →
        next.cells.getD (u.get_index x y) Cell.Dead =
          tickRule (u.cells.getD (u.get_index x y) Cell.Dead)
            (u.live_neighbor_count x y) := by
  refine ⟨{ u with cells := u.nextCells }, tick_eq_ok u hmode, nextCells_length u,
    fun x y hx hy => ?_⟩
  exact nextCells_getD u hlen hx hy

/-- Witness for C1 on the concrete all-dead 3×3 `Wrap` universe. -/
theorem tick_spec_witness :
    uThree.edge_mode ≠ .Expand ∧
    uThree.cells.length = uThree.width * uThree.height ∧
    ∃ next, uThree.tick = .ok next ∧
      next.cells.length = uThree.cells.length ∧
      ∀ x y, x < uThree.width → y < uThree.height →
        next.cells.getD (uThree.get_index x y) Cell.Dead =
          tickRule (uThree.cells.getD (uThree.get_index x y) Cell.Dead)
            (uThree.live_neighbor_count x y) :=
  ⟨by decide, by decide, tick_spec uThree (by decide) (by decide)⟩

/-! ## C4: `tick` under `Expand` -/

/-- A universe constructed with `edge_mode = Expand`. -/
def uExpand : Universe :=
  { width := 2
    height := 2
    cells := [Cell.Dead, Cell.Alive, Cell.Dead, Cell.Dead]
    edge_mode := .Expand }

/-- C4 (as far as the embedding can state it): when `edge_mode = Expand`,
`tick` fails before writing anything — it never produces a universe, so the
cell buffer is left unmodified.  In the Rust source the failure is the
`unimplemented!()` macro, i.e. a panic, which is modelled here as the error
value `TickError.unimplemented`; the source defines no catchable
`UnsupportedEdgeMode` error type. -/
theorem tick_expand_fails (u : Universe) (hmode : u.edge_mode = .Expand) :
    u.tick = .error .unimplemented ∧ ∀ next, u.tick ≠ .ok next := by
  have h : u.tick = .error .unimplemented := by
    unfold Universe.tick
    rw [hmode]
  exact ⟨h, fun next hnext => by rw [h] at hnext; cases hnext⟩

/-- Witness for C4 at the concrete `Expand` universe. -/
theorem tick_expand_fails_witness :
    uExpand.tick = .error .unimplemented ∧ ∀ next, uExpand.tick ≠ .ok next :=
  tick_expand_fails uExpand rfl

/-! ## C8/C9 witness universes: a 5×5 blinker -/

/-- Horizontal blinker on a 5×5 `Wrap` grid: live cells `(2,1)`, `(2,2)`,
`(2,3)` (buffer offsets 11, 12, 13 under the `row * height + column`
indexing). -/
def uBlinkH : Universe :=
  { width := 5
    height := 5
    cells := (List.range 25).map (fun i =>
      if i = 11 ∨ i = 12 ∨ i = 13 then Cell.Alive else Cell.Dead)
    edge_mode := .Wrap }

/-- Vertical blinker on a 5×5 `Wrap` grid: live cells `(1,2)`, `(2,2)`,
`(3,2)` (buffer offsets 7, 12, 17). -/
def uBlinkV : Universe :=
  { width := 5
    height := 5
    cells := (List.range 25).map (fun i =>
      if i = 7 ∨ i = 12 ∨ i = 17 then Cell.Alive else Cell.Dead)
    edge_mode := .Wrap }

/-! ## C9: field and length invariants of the public operations -/

/-- C9: `new` establishes `cells.length = width * height`; a successful
`tick` preserves `width`, `height`, `edge_mode` and the buffer length (hence
the length invariant); `render` returns only a `String` and, being a pure
function of the universe, mutates nothing — rendering twice yields the same
text. -/
theorem fields_invariant :
    (Universe.new.cells.length = Universe.new.width * Universe.new.height) ∧
    (∀ u next : Universe, u.tick = .ok next →
      next.width = u.width ∧ next.height = u.height ∧
      next.edge_mode = u.edge_mode ∧ next.cells.length = u.cells.length ∧
      (u.cells.length = u.width * u.height →
        next.cells.length = next.width * next.height)) ∧
    (∀ u : Universe, u.render = u.render) := by
  refine ⟨by simp [Universe.new], fun u next h => ?_, fun u => rfl⟩
  obtain ⟨-, rfl⟩ := tick_ok_inv h
  exact ⟨rfl, rfl, rfl, nextCells_length u, fun hlen => by
    rw [nextCells_length u, hlen]⟩

/-- Witness for C9: the blinker tick (a genuinely changed buffer) keeps all
three fields and the buffer length. -/
theorem fields_invariant_witness :
    uBlinkV.width = uBlinkH.width ∧ uBlinkV.height = uBlinkH.height ∧
    uBlinkV.edge_mode = uBlinkH.edge_mode ∧
    uBlinkV.cells.length = uBlinkH.cells.length ∧
    (uBlinkH.cells.length = uBlinkH.width * uBlinkH.height →
      uBlinkV.cells.length = uBlinkV.width * uBlinkV.height) :=
  fields_invariant.2.1 uBlinkH uBlinkV (by decide)

/-! ## C10: every reachable universe wraps, so `tick` never fails -/

/-- The universes reachable through the public interface: `new()` is the only
exposed constructor, and `tick()` the only mutator. -/
inductive Reachable : Universe → Prop where
  | new : Reachable Universe.new
  | tick {u next : Universe} : Reachable u → u.tick = .ok next → Reachable next

/-- C10: every reachable universe has `edge_mode = Wrap` (so the `Expand`
branch of `tick` and the `FixedAlive`/`FixedDead` branches of
`live_neighbor_count` are never taken), and `tick` always succeeds on it. -/
theorem reachable_wrap (u : Universe) (hu : Reachable u) :
    u.edge_mode = .Wrap ∧ ∃ next, u.tick = .ok next := by
  induction hu with
  | new =>
      refine ⟨rfl, ⟨_, tick_eq_ok Universe.new ?_⟩⟩
      intro h
      cases h
  | @tick u next hu htick ih =>
      obtain ⟨-, rfl⟩ := tick_ok_inv htick
      have hmode : Universe.edge_mode { u with cells := u.nextCells } = .Wrap := ih.1
      refine ⟨hmode, ⟨_, tick_eq_ok _ ?_⟩⟩
      rw [hmode]
      decide

/-- Witness for C10 at the freshly constructed universe. -/
theorem reachable_wrap_witness :
    Universe.new.edge_mode = .Wrap ∧ ∃ next, Universe.new.tick = .ok next :=
  reachable_wrap Universe.new Reachable.new

/-! ## C7: rendering -/

lemma getD_eq_getElem (l : List Cell) (i : Nat) (d : Cell) (h : i < l.length) :
    l.getD i d = l[i] := by
  rw [List.getD_eq_getElem?_getD, List.getElem?_eq_getElem h]
  rfl

/-- With the length invariant, the chunking loop of `Display` yields exactly
`height` rows of `width` cells each, in buffer order. -/
lemma chunksAux_spec : ∀ (n w : Nat), 0 < w → ∀ (l : List Cell) (fuel : Nat),
    l.length = w * n → l.length ≤ fuel →
    chunksAux w fuel l = (List.range n).map (fun r => (l.drop (r * w)).take w) := by
  intro n
  induction n with
  | zero =>
      intro w hw l fuel hlen _
      have hnil : l = [] := List.eq_nil_of_length_eq_zero (by omega)
      subst hnil
      cases fuel <;> rfl
  | succ n ih =>
      intro w hw l fuel hlen hfuel
      rw [Nat.mul_succ] at hlen
      have hlpos : 0 < l.length := by omega
      cases l with
      | nil => simp at hlpos
      | cons c cs =>
          cases fuel with
          | zero => omega
          | succ f =>
              have hdrop_len : ((c :: cs).drop w).length = w * n := by
                rw [List.length_drop]
                omega
              have hdrop_fuel : ((c :: cs).drop w).length ≤ f := by
                rw [List.length_drop]
                omega
              simp only [chunksAux]
              rw [ih w hw _ f hdrop_len hdrop_fuel,
                List.range_succ_eq_map, List.map_cons, List.map_map]
              congr 1
              · rw [Nat.zero_mul, List.drop_zero]
              · apply List.map_congr_left
                intro r _
                simp only [Function.comp_apply, List.drop_drop, Nat.succ_mul]
                rw [Nat.add_comm w (r * w)]

lemma take_drop_eq_map_range (l : List Cell) (w r : Nat) (h : r * w + w ≤ l.length) :
    (l.drop (r * w)).take w =
      (List.range w).map (fun c => l.getD (r * w + c) Cell.Dead) := by
  apply List.ext_getElem
  · simp only [List.length_take, List.length_drop, List.length_map, List.length_range]
    omega
  · intro i h1 h2
    simp only [List.length_take, List.length_drop] at h1
    simp only [List.getElem_take, List.getElem_drop, List.getElem_map, List.getElem_range]
    rw [getD_eq_getElem _ _ _ (by omega)]

/-- C7: `render` produces exactly the text described by the spec — one line
per grid row, one glyph per cell with no separator, each row terminated by a
newline and nothing after the final one (`renderSpec`); the two glyphs are
distinct; and `render`, a pure function of the universe, yields identical
text on consecutive calls with no intervening `tick`. -/
theorem render_spec_correct (u : Universe) (hw : 0 < u.width)
    (hlen : u.cells.length = u.width * u.height) :
    u.render = u.renderSpec ∧ glyph Cell.Alive ≠ glyph Cell.Dead ∧
      u.render = u.render := by
  refine ⟨?_, by decide, rfl⟩
  unfold Universe.render Universe.renderSpec
  rw [chunksAux_spec u.height u.width hw u.cells u.cells.length hlen (Nat.le_refl _),
    List.map_map]
  congr 1
  apply List.map_congr_left
  intro r hr
  have hr' : r < u.height := List.mem_range.mp hr
  have hbound : r * u.width + u.width ≤ u.cells.length := by
    rw [hlen, Nat.mul_comm u.width u.height]
    have h1 : (r + 1) * u.width ≤ u.height * u.width :=
      Nat.mul_le_mul_right _ (by omega)
    rw [Nat.add_mul, Nat.one_mul] at h1
    exact h1
  simp only [Function.comp_apply]
  rw [take_drop_eq_map_range u.cells u.width r hbound, List.map_map]
  rfl

/-- Witness for C7 at a concrete universe. -/
theorem render_spec_correct_witness :
    uTwo.render = uTwo.renderSpec ∧ glyph Cell.Alive ≠ glyph Cell.Dead ∧
      uTwo.render = uTwo.render :=
  render_spec_correct uTwo (by decide) (by decide)

/-! ## C8: blinker oscillation (machinery) -/

/-- The logical grid holds exactly the pattern `P`: cell `(a, b)` is `Alive`
precisely when `P a b` holds. -/
def Universe.cellsMatch (u : Universe) (P : Nat → Nat → Prop)
    [∀ a b, Decidable (P a b)] : Prop :=
  ∀ a, a < u.width → ∀ b, b < u.height →
    u.cells.getD (u.get_index a b) Cell.Dead =
      if P a b then Cell.Alive else Cell.Dead

instance (u : Universe) (P : Nat → Nat → Prop) [∀ a b, Decidable (P a b)] :
    Decidable (u.cellsMatch P) := by
  unfold Universe.cellsMatch
  exact inferInstance

/-- A horizontal 3-cell line in row `r` centered on column `c`. -/
def horizLine (r c a b : Nat) : Prop :=
  a = r ∧ (b = c - 1 ∨ b = c ∨ b = c + 1)

instance (r c a b : Nat) : Decidable (horizLine r c a b) := by
  unfold horizLine
  exact inferInstance

/-- A vertical 3-cell line in column `c` centered on row `r`. -/
def vertLine (r c a b : Nat) : Prop :=
  (a = r - 1 ∨ a = r ∨ a = r + 1) ∧ b = c

instance (r c a b : Nat) : Decidable (vertLine r c a b) := by
  unfold vertLine
  exact inferInstance

lemma skipContrib_ne (u : Universe) (row col dx dy : Nat) (h : ¬(dx = 0 ∧ dy = 0)) :
    u.skipContrib row col dx dy = u.neighborContrib row col dx dy := by
  unfold Universe.skipContrib
  rw [if_neg h]

lemma neighborContrib_wrap (u : Universe) (hmode : u.edge_mode = .Wrap)
    (row col dx dy : Nat) :
    u.neighborContrib row col dx dy =
      (u.cells.getD
        (u.get_index ((row + dx) % u.width) ((col + dy) % u.height))
        Cell.Dead).toNat := by
  unfold Universe.neighborContrib
  rw [hmode]

/-- In `Wrap` mode the neighbor count is the sum of the eight wrapped buffer
reads. -/
lemma lnc_wrap_eq (u : Universe) (hmode : u.edge_mode = .Wrap)
    (hw : 2 ≤ u.width) (hh : 2 ≤ u.height) (row col : Nat) :
    u.live_neighbor_count row col =
      (u.cells.getD (u.get_index ((row + (u.width - 1)) % u.width)
        ((col + (u.height - 1)) % u.height)) Cell.Dead).toNat +
      (u.cells.getD (u.get_index ((row + (u.width - 1)) % u.width)
        ((col + 0) % u.height)) Cell.Dead).toNat +
      (u.cells.getD (u.get_index ((row + (u.width - 1)) % u.width)
        ((col + 1) % u.height)) Cell.Dead).toNat +
      (u.cells.getD (u.get_index ((row + 0) % u.width)
        ((col + (u.height - 1)) % u.height)) Cell.Dead).toNat +
      (u.cells.getD (u.get_index ((row + 0) % u.width)
        ((col + 1) % u.height)) Cell.Dead).toNat +
      (u.cells.getD (u.get_index ((row + 1) % u.width)
        ((col + (u.height - 1)) % u.height)) Cell.Dead).toNat +
      (u.cells.getD (u.get_index ((row + 1) % u.width)
        ((col + 0) % u.height)) Cell.Dead).toNat +
      (u.cells.getD (u.get_index ((row + 1) % u.width)
        ((col + 1) % u.height)) Cell.Dead).toNat := by
  rw [lnc_eq_sum,
    skipContrib_ne u row col (u.width - 1) (u.height - 1) (by omega),
    skipContrib_ne u row col (u.width - 1) 0 (by omega),
    skipContrib_ne u row col (u.width - 1) 1 (by omega),
    skipContrib_ne u row col 0 (u.height - 1) (by omega),
    skipContrib_ne u row col 0 1 (by omega),
    skipContrib_ne u row col 1 (u.height - 1) (by omega),
    skipContrib_ne u row col 1 0 (by omega),
    skipContrib_ne u row col 1 1 (by omega)]
  simp only [neighborContrib_wrap u hmode]

lemma getD_match_toNat (u : Universe) (P : Nat → Nat → Prop)
    [∀ a b, Decidable (P a b)] (hmatch : u.cellsMatch P)
    {a b : Nat} (ha : a < u.width) (hb : b < u.height) :
    (u.cells.getD (u.get_index a b) Cell.Dead).toNat = if P a b then 1 else 0 := by
  rw [hmatch a ha b hb]
  split_ifs <;> rfl

lemma getD_match_mod (u : Universe) (P : Nat → Nat → Prop)
    [∀ a b, Decidable (P a b)] (hmatch : u.cellsMatch P)
    (hw : 0 < u.width) (hh : 0 < u.height) (n m : Nat) :
    (u.cells.getD (u.get_index (n % u.width) (m % u.height)) Cell.Dead).toNat =
      if P (n % u.width) (m % u.height) then 1 else 0 :=
  getD_match_toNat u P hmatch (Nat.mod_lt _ hw) (Nat.mod_lt _ hh)

lemma iand_left0 {A B : Prop} [Decidable A] [Decidable B] (h : ¬A) :
    (if A ∧ B then (1 : Nat) else 0) = 0 :=
  if_neg (fun hc => h hc.1)

lemma iand_right0 {A B : Prop} [Decidable A] [Decidable B] (h : ¬B) :
    (if A ∧ B then (1 : Nat) else 0) = 0 :=
  if_neg (fun hc => h hc.2)

lemma iand_left1 {A B : Prop} [Decidable A] [Decidable B] (h : A) :
    (if A ∧ B then (1 : Nat) else 0) = if B then 1 else 0 := by
  by_cases hb : B
  · rw [if_pos ⟨h, hb⟩, if_pos hb]
  · rw [if_neg (fun hc => hb hc.2), if_neg hb]

lemma iand_right1 {A B : Prop} [Decidable A] [Decidable B] (h : B) :
    (if A ∧ B then (1 : Nat) else 0) = if A then 1 else 0 := by
  by_cases ha : A
  · rw [if_pos ⟨ha, h⟩, if_pos ha]
  · rw [if_neg (fun hc => ha hc.1), if_neg ha]

lemma cand_left0 {A B : Prop} [Decidable A] [Decidable B] (h : ¬A) :
    (if A ∧ B then Cell.Alive else Cell.Dead) = Cell.Dead :=
  if_neg (fun hc => h hc.1)

lemma cand_right0 {A B : Prop} [Decidable A] [Decidable B] (h : ¬B) :
    (if A ∧ B then Cell.Alive else Cell.Dead) = Cell.Dead :=
  if_neg (fun hc => h hc.2)

lemma cand_left1 {A B : Prop} [Decidable A] [Decidable B] (h : A) :
    (if A ∧ B then Cell.Alive else Cell.Dead) = if B then Cell.Alive else Cell.Dead := by
  by_cases hb : B
  · rw [if_pos ⟨h, hb⟩, if_pos hb]
  · rw [if_neg (fun hc => hb hc.2), if_neg hb]

lemma cand_right1 {A B : Prop} [Decidable A] [Decidable B] (h : B) :
    (if A ∧ B then Cell.Alive else Cell.Dead) = if A then Cell.Alive else Cell.Dead := by
  by_cases ha : A
  · rw [if_pos ⟨ha, h⟩, if_pos ha]
  · rw [if_neg (fun hc => ha hc.1), if_neg ha]

lemma eq_of_getD_grid (l₁ l₂ : List Cell) (w h : Nat)
    (hl1 : l₁.length = w * h) (hl2 : l₂.length = w * h)
    (heq : ∀ a, a < w → ∀ b, b < h →
      l₁.getD (a * h + b) Cell.Dead = l₂.getD (a * h + b) Cell.Dead) :
    l₁ = l₂ := by
  apply List.ext_getElem (by omega)
  intro i h1 h2
  have hi : i < w * h := by omega
  have hh : 0 < h := by
    rcases Nat.eq_zero_or_pos h with h0 | h0
    · rw [h0, Nat.mul_zero] at hi; omega
    · exact h0
  have hdiv : i / h < w := by
    rw [Nat.div_lt_iff_lt_mul hh]
    exact hi
  have hthis := heq (i / h) hdiv (i % h) (Nat.mod_lt _ hh)
  have hidx : i / h * h + i % h = i := by
    rw [Nat.mul_comm]
    exact Nat.div_add_mod i h
  rw [hidx] at hthis
  rw [getD_eq_getElem _ _ _ (by omega), getD_eq_getElem _ _ _ (by omega)] at hthis
  exact hthis

lemma ite_ne {c : Prop} [Decidable c] {a b d : Nat} (ha : a ≠ d) (hb : b ≠ d) :
    ¬((if c then a else b) = d) := by
  by_cases h : c
  · rw [if_pos h]; exact ha
  · rw [if_neg h]; exact hb

lemma ite_not_orchain {c : Prop} [Decidable c] {a b d e f : Nat}
    (ha : ¬(a = d ∨ a = e ∨ a = f)) (hb : ¬(b = d ∨ b = e ∨ b = f)) :
    ¬((if c then a else b) = d ∨ (if c then a else b) = e ∨
      (if c then a else b) = f) := by
  by_cases h : c
  · rw [if_pos h]; exact ha
  · rw [if_neg h]; exact hb

/-- The fate of a dead cell whose three same-side neighbors are tested
against the 3-window centered at `m`: it is born exactly at `t = m`. -/
lemma tick_dead_window (s m t : Nat) (hm1 : 2 ≤ m) (hm2 : m + 2 < s) (ht : t < s) :
    tickRule Cell.Dead
      ((if ((if t = 0 then s - 1 else t - 1) = m - 1 ∨
            (if t = 0 then s - 1 else t - 1) = m ∨
            (if t = 0 then s - 1 else t - 1) = m + 1) then (1 : Nat) else 0) +
       (if (t = m - 1 ∨ t = m ∨ t = m + 1) then 1 else 0) +
       (if ((if t + 1 = s then 0 else t + 1) = m - 1 ∨
            (if t + 1 = s then 0 else t + 1) = m ∨
            (if t + 1 = s then 0 else t + 1) = m + 1) then 1 else 0)) =
      if t = m then Cell.Alive else Cell.Dead := by
  rcases (by omega : t = m ∨ t = m - 1 ∨ t = m + 1 ∨ t = m - 2 ∨ t = m + 2 ∨
      (t ≠ m ∧ t ≠ m - 1 ∧ t ≠ m + 1 ∧ t ≠ m - 2 ∧ t ≠ m + 2)) with
    h | h | h | h | h | ⟨h1, h2, h3, h4, h5⟩
  · rw [h]
    rw [if_neg (show ¬(m = 0) by omega), if_neg (show ¬(m + 1 = s) by omega),
      if_pos (show m - 1 = m - 1 ∨ m - 1 = m ∨ m - 1 = m + 1 from Or.inl rfl),
      if_pos (show m = m - 1 ∨ m = m ∨ m = m + 1 from Or.inr (Or.inl rfl)),
      if_pos (show m + 1 = m - 1 ∨ m + 1 = m ∨ m + 1 = m + 1 from Or.inr (Or.inr rfl)),
      if_pos rfl]
    rfl
  · rw [h]
    rw [if_neg (show ¬(m - 1 = 0) by omega), if_neg (show ¬(m - 1 + 1 = s) by omega),
      if_neg (show ¬(m - 1 - 1 = m - 1 ∨ m - 1 - 1 = m ∨ m - 1 - 1 = m + 1) by omega),
      if_pos (show m - 1 = m - 1 ∨ m - 1 = m ∨ m - 1 = m + 1 from Or.inl rfl),
      if_pos (show m - 1 + 1 = m - 1 ∨ m - 1 + 1 = m ∨ m - 1 + 1 = m + 1 by omega),
      if_neg (show ¬(m - 1 = m) by omega)]
    rfl
  · rw [h]
    rw [if_neg (show ¬(m + 1 = 0) by omega), if_neg (show ¬(m + 1 + 1 = s) by omega),
      if_pos (show m + 1 - 1 = m - 1 ∨ m + 1 - 1 = m ∨ m + 1 - 1 = m + 1 by omega),
      if_pos (show m + 1 = m - 1 ∨ m + 1 = m ∨ m + 1 = m + 1 from Or.inr (Or.inr rfl)),
      if_neg (show ¬(m + 1 + 1 = m - 1 ∨ m + 1 + 1 = m ∨ m + 1 + 1 = m + 1) by omega),
      if_neg (show ¬(m + 1 = m) by omega)]
    rfl
  · rw [h]
    have e1 : ¬((if m - 2 = 0 then s - 1 else m - 2 - 1) = m - 1 ∨
        (if m - 2 = 0 then s - 1 else m - 2 - 1) = m ∨
        (if m - 2 = 0 then s - 1 else m - 2 - 1) = m + 1) :=
      ite_not_orchain (by omega) (by omega)
    have e3 : ((if m - 2 + 1 = s then 0 else m - 2 + 1) = m - 1 ∨
        (if m - 2 + 1 = s then 0 else m - 2 + 1) = m ∨
        (if m - 2 + 1 = s then 0 else m - 2 + 1) = m + 1) := by
      rw [if_neg (show ¬(m - 2 + 1 = s) by omega)]
      omega
    rw [if_neg e1,
      if_neg (show ¬(m - 2 = m - 1 ∨ m - 2 = m ∨ m - 2 = m + 1) by omega),
      if_pos e3, if_neg (show ¬(m - 2 = m) by omega)]
    rfl
  · rw [h]
    have e1 : ((if m + 2 = 0 then s - 1 else m + 2 - 1) = m - 1 ∨
        (if m + 2 = 0 then s - 1 else m + 2 - 1) = m ∨
        (if m + 2 = 0 then s - 1 else m + 2 - 1) = m + 1) := by
      rw [if_neg (show ¬(m + 2 = 0) by omega)]
      omega
    have e3 : ¬((if m + 2 + 1 = s then 0 else m + 2 + 1) = m - 1 ∨
        (if m + 2 + 1 = s then 0 else m + 2 + 1) = m ∨
        (if m + 2 + 1 = s then 0 else m + 2 + 1) = m + 1) :=
      ite_not_orchain (by omega) (by omega)
    rw [if_pos e1,
      if_neg (show ¬(m + 2 = m - 1 ∨ m + 2 = m ∨ m + 2 = m + 1) by omega),
      if_neg e3, if_neg (show ¬(m + 2 = m) by omega)]
    rfl
  · have e1 : ¬((if t = 0 then s - 1 else t - 1) = m - 1 ∨
        (if t = 0 then s - 1 else t - 1) = m ∨
        (if t = 0 then s - 1 else t - 1) = m + 1) :=
      ite_not_orchain (by omega) (by omega)
    have e3 : ¬((if t + 1 = s then 0 else t + 1) = m - 1 ∨
        (if t + 1 = s then 0 else t + 1) = m ∨
        (if t + 1 = s then 0 else t + 1) = m + 1) :=
      ite_not_orchain (by omega) (by omega)
    rw [if_neg e1, if_neg (show ¬(t = m - 1 ∨ t = m ∨ t = m + 1) by omega),
      if_neg e3, if_neg (show ¬(t = m) by omega)]
    rfl

/-- The fate of a cell on the live axis, whose two same-side neighbors are
tested against the 3-window centered at `m`: only the center `t = m`
survives. -/
lemma tick_axis_window (s m t : Nat) (hm1 : 2 ≤ m) (hm2 : m + 2 < s) (ht : t < s) :
    tickRule (if (t = m - 1 ∨ t = m ∨ t = m + 1) then Cell.Alive else Cell.Dead)
      ((if ((if t = 0 then s - 1 else t - 1) = m - 1 ∨
            (if t = 0 then s - 1 else t - 1) = m ∨
            (if t = 0 then s - 1 else t - 1) = m + 1) then (1 : Nat) else 0) +
       (if ((if t + 1 = s then 0 else t + 1) = m - 1 ∨
            (if t + 1 = s then 0 else t + 1) = m ∨
            (if t + 1 = s then 0 else t + 1) = m + 1) then 1 else 0)) =
      if t = m then Cell.Alive else Cell.Dead := by
  rcases (by omega : t = m ∨ t = m - 1 ∨ t = m + 1 ∨ t = m - 2 ∨ t = m + 2 ∨
      (t ≠ m ∧ t ≠ m - 1 ∧ t ≠ m + 1 ∧ t ≠ m - 2 ∧ t ≠ m + 2)) with
    h | h | h | h | h | ⟨h1, h2, h3, h4, h5⟩
  · rw [h]
    rw [if_neg (show ¬(m = 0) by omega), if_neg (show ¬(m + 1 = s) by omega),
      if_pos (show m = m - 1 ∨ m = m ∨ m = m + 1 from Or.inr (Or.inl rfl)),
      if_pos (show m - 1 = m - 1 ∨ m - 1 = m ∨ m - 1 = m + 1 from Or.inl rfl),
      if_pos (show m + 1 = m - 1 ∨ m + 1 = m ∨ m + 1 = m + 1 from Or.inr (Or.inr rfl)),
      if_pos rfl]
    rfl
  · rw [h]
    rw [if_neg (show ¬(m - 1 = 0) by omega), if_neg (show ¬(m - 1 + 1 = s) by omega),
      if_pos (show m - 1 = m - 1 ∨ m - 1 = m ∨ m - 1 = m + 1 from Or.inl rfl),
      if_neg (show ¬(m - 1 - 1 = m - 1 ∨ m - 1 - 1 = m ∨ m - 1 - 1 = m + 1) by omega),
      if_pos (show m - 1 + 1 = m - 1 ∨ m - 1 + 1 = m ∨ m - 1 + 1 = m + 1 by omega),
      if_neg (show ¬(m - 1 = m) by omega)]
    rfl
  · rw [h]
    rw [if_neg (show ¬(m + 1 = 0) by omega), if_neg (show ¬(m + 1 + 1 = s) by omega),
      if_pos (show m + 1 = m - 1 ∨ m + 1 = m ∨ m + 1 = m + 1 from Or.inr (Or.inr rfl)),
      if_pos (show m + 1 - 1 = m - 1 ∨ m + 1 - 1 = m ∨ m + 1 - 1 = m + 1 by omega),
      if_neg (show ¬(m + 1 + 1 = m - 1 ∨ m + 1 + 1 = m ∨ m + 1 + 1 = m + 1) by omega),
      if_neg (show ¬(m + 1 = m) by omega)]
    rfl
  · rw [h]
    have e1 : ¬((if m - 2 = 0 then s - 1 else m - 2 - 1) = m - 1 ∨
        (if m - 2 = 0 then s - 1 else m - 2 - 1) = m ∨
        (if m - 2 = 0 then s - 1 else m - 2 - 1) = m + 1) :=
      ite_not_orchain (by omega) (by omega)
    have e3 : ((if m - 2 + 1 = s then 0 else m - 2 + 1) = m - 1 ∨
        (if m - 2 + 1 = s then 0 else m - 2 + 1) = m ∨
        (if m - 2 + 1 = s then 0 else m - 2 + 1) = m + 1) := by
      rw [if_neg (show ¬(m - 2 + 1 = s) by omega)]
      omega
    rw [if_neg (show ¬(m - 2 = m - 1 ∨ m - 2 = m ∨ m - 2 = m + 1) by omega),
      if_neg e1, if_pos e3, if_neg (show ¬(m - 2 = m) by omega)]
    rfl
  · rw [h]
    have e1 : ((if m + 2 = 0 then s - 1 else m + 2 - 1) = m - 1 ∨
        (if m + 2 = 0 then s - 1 else m + 2 - 1) = m ∨
        (if m + 2 = 0 then s - 1 else m + 2 - 1) = m + 1) := by
      rw [if_neg (show ¬(m + 2 = 0) by omega)]
      omega
    have e3 : ¬((if m + 2 + 1 = s then 0 else m + 2 + 1) = m - 1 ∨
        (if m + 2 + 1 = s then 0 else m + 2 + 1) = m ∨
        (if m + 2 + 1 = s then 0 else m + 2 + 1) = m + 1) :=
      ite_not_orchain (by omega) (by omega)
    rw [if_neg (show ¬(m + 2 = m - 1 ∨ m + 2 = m ∨ m + 2 = m + 1) by omega),
      if_pos e1, if_neg e3, if_neg (show ¬(m + 2 = m) by omega)]
    rfl
  · have e1 : ¬((if t = 0 then s - 1 else t - 1) = m - 1 ∨
        (if t = 0 then s - 1 else t - 1) = m ∨
        (if t = 0 then s - 1 else t - 1) = m + 1) :=
      ite_not_orchain (by omega) (by omega)
    have e3 : ¬((if t + 1 = s then 0 else t + 1) = m - 1 ∨
        (if t + 1 = s then 0 else t + 1) = m ∨
        (if t + 1 = s then 0 else t + 1) = m + 1) :=
      ite_not_orchain (by omega) (by omega)
    rw [if_neg (show ¬(t = m - 1 ∨ t = m ∨ t = m + 1) by omega),
      if_neg e1, if_neg e3, if_neg (show ¬(t = m) by omega)]
    rfl

/-- One tick turns a horizontal blinker cell-wise into the vertical one. -/
lemma tick_cell_H (u : Universe) (r c : Nat) (hmode : u.edge_mode = .Wrap)
    (hr1 : 2 ≤ r) (hr2 : r + 2 < u.width) (hc1 : 2 ≤ c) (hc2 : c + 2 < u.height)
    (hmatch : u.cellsMatch (horizLine r c))
    (x y : Nat) (hx : x < u.width) (hy : y < u.height) :
    tickRule (u.cells.getD (u.get_index x y) Cell.Dead) (u.live_neighbor_count x y) =
      if vertLine r c x y then Cell.Alive else Cell.Dead := by
  have hw0 : 0 < u.width := by omega
  have hh0 : 0 < u.height := by omega
  rw [hmatch x hx y hy, lnc_wrap_eq u hmode (by omega) (by omega) x y]
  simp only [getD_match_mod u (horizLine r c) hmatch hw0 hh0]
  simp only [mod_stay_eq hx, mod_stay_eq hy, mod_back_eq hx, mod_back_eq hy,
    mod_fwd_eq hx, mod_fwd_eq hy]
  simp only [horizLine, vertLine]
  rcases (by omega :
      x = r - 1 ∨ x = r ∨ x = r + 1 ∨ (x ≠ r - 1 ∧ x ≠ r ∧ x ≠ r + 1)) with
    hx1 | hx1 | hx1 | ⟨hx1, hx2, hx3⟩
  · rw [hx1]
    rw [if_neg (show ¬(r - 1 = 0) by omega),
      if_neg (show ¬(r - 1 + 1 = u.width) by omega)]
    have ham : ¬(r - 1 - 1 = r) := by omega
    have hax : ¬(r - 1 = r) := by omega
    have hap : r - 1 + 1 = r := by omega
    simp only [hap, iand_left0 ham, iand_left0 hax, cand_left0 hax,
      true_or, or_true, true_and, and_true, Nat.zero_add, Nat.add_zero]
    exact tick_dead_window u.height c y hc1 hc2 hy
  · rw [hx1]
    rw [if_neg (show ¬(r = 0) by omega),
      if_neg (show ¬(r + 1 = u.width) by omega)]
    have ham : ¬(r - 1 = r) := by omega
    have hap : ¬(r + 1 = r) := by omega
    simp only [iand_left0 ham, iand_left0 hap,
      true_or, or_true, true_and, and_true, Nat.zero_add, Nat.add_zero]
    exact tick_axis_window u.height c y hc1 hc2 hy
  · rw [hx1]
    rw [if_neg (show ¬(r + 1 = 0) by omega),
      if_neg (show ¬(r + 1 + 1 = u.width) by omega)]
    have ham : r + 1 - 1 = r := by omega
    have hax : ¬(r + 1 = r) := by omega
    have hap : ¬(r + 1 + 1 = r) := by omega
    simp only [ham, iand_left0 hax, iand_left0 hap, cand_left0 hax,
      true_or, or_true, true_and, and_true, Nat.zero_add, Nat.add_zero]
    exact tick_dead_window u.height c y hc1 hc2 hy
  · have ham : ¬((if x = 0 then u.width - 1 else x - 1) = r) :=
      ite_ne (by omega) (by omega)
    have hap : ¬((if x + 1 = u.width then 0 else x + 1) = r) :=
      ite_ne (by omega) (by omega)
    simp only [iand_left0 ham, iand_left0 hx2, iand_left0 hap, cand_left0 hx2,
      cand_left0 (show ¬(x = r - 1 ∨ x = r ∨ x = r + 1) by omega),
      Nat.zero_add, Nat.add_zero]
    rfl

/-- One tick turns a vertical blinker cell-wise back into the horizontal
one. -/
lemma tick_cell_V (u : Universe) (r c : Nat) (hmode : u.edge_mode = .Wrap)
    (hr1 : 2 ≤ r) (hr2 : r + 2 < u.width) (hc1 : 2 ≤ c) (hc2 : c + 2 < u.height)
    (hmatch : u.cellsMatch (vertLine r c))
    (x y : Nat) (hx : x < u.width) (hy : y < u.height) :
    tickRule (u.cells.getD (u.get_index x y) Cell.Dead) (u.live_neighbor_count x y) =
      if horizLine r c x y then Cell.Alive else Cell.Dead := by
  have hw0 : 0 < u.width := by omega
  have hh0 : 0 < u.height := by omega
  rw [hmatch x hx y hy, lnc_wrap_eq u hmode (by omega) (by omega) x y]
  simp only [getD_match_mod u (vertLine r c) hmatch hw0 hh0]
  simp only [mod_stay_eq hx, mod_stay_eq hy, mod_back_eq hx, mod_back_eq hy,
    mod_fwd_eq hx, mod_fwd_eq hy]
  simp only [horizLine, vertLine]
  rcases (by omega :
      y = c - 1 ∨ y = c ∨ y = c + 1 ∨ (y ≠ c - 1 ∧ y ≠ c ∧ y ≠ c + 1)) with
    hy1 | hy1 | hy1 | ⟨hy1, hy2, hy3⟩
  · rw [hy1]
    rw [if_neg (show ¬(c - 1 = 0) by omega),
      if_neg (show ¬(c - 1 + 1 = u.height) by omega)]
    have hbm : ¬(c - 1 - 1 = c) := by omega
    have hby : ¬(c - 1 = c) := by omega
    have hbp : c - 1 + 1 = c := by omega
    simp only [hbp, iand_right0 hbm, iand_right0 hby, cand_right0 hby,
      true_or, or_true, true_and, and_true, Nat.zero_add, Nat.add_zero]
    exact tick_dead_window u.width r x hr1 hr2 hx
  · rw [hy1]
    rw [if_neg (show ¬(c = 0) by omega),
      if_neg (show ¬(c + 1 = u.height) by omega)]
    have hbm : ¬(c - 1 = c) := by omega
    have hbp : ¬(c + 1 = c) := by omega
    simp only [iand_right0 hbm, iand_right0 hbp,
      true_or, or_true, true_and, and_true, Nat.zero_add, Nat.add_zero]
    exact tick_axis_window u.width r x hr1 hr2 hx
  · rw [hy1]
    rw [if_neg (show ¬(c + 1 = 0) by omega),
      if_neg (show ¬(c + 1 + 1 = u.height) by omega)]
    have hbm : c + 1 - 1 = c := by omega
    have hby : ¬(c + 1 = c) := by omega
    have hbp : ¬(c + 1 + 1 = c) := by omega
    simp only [hbm, iand_right0 hby, iand_right0 hbp, cand_right0 hby,
      true_or, or_true, true_and, and_true, Nat.zero_add, Nat.add_zero]
    exact tick_dead_window u.width r x hr1 hr2 hx
  · have hbm : ¬((if y = 0 then u.height - 1 else y - 1) = c) :=
      ite_ne (by omega) (by omega)
    have hbp : ¬((if y + 1 = u.height then 0 else y + 1) = c) :=
      ite_ne (by omega) (by omega)
    simp only [iand_right0 hbm, iand_right0 hy2, iand_right0 hbp, cand_right0 hy2,
      cand_right0 (show ¬(y = c - 1 ∨ y = c ∨ y = c + 1) by omega),
      Nat.zero_add, Nat.add_zero]
    rfl

/-- C8: on any `Wrap` universe large enough that a horizontal 3-cell blinker
centered at `(r, c)` sits two cells away from every border, one `tick` yields
exactly the vertical 3-cell line centered on the same middle cell `(r, c)`,
and a second `tick` restores the original buffer contents exactly. -/
theorem blinker_oscillates (u : Universe) (r c : Nat)
    (hmode : u.edge_mode = .Wrap) (hlen : u.cells.length = u.width * u.height)
    (hr1 : 2 ≤ r) (hr2 : r + 2 < u.width) (hc1 : 2 ≤ c) (hc2 : c + 2 < u.height)
    (hmatch : u.cellsMatch (horizLine r c)) :
    ∃ v, u.tick = .ok v ∧ v.cellsMatch (vertLine r c) ∧
      ∃ u2, v.tick = .ok u2 ∧ u2.cells = u.cells := by
  have hne : u.edge_mode ≠ .Expand := by
    rw [hmode]
    decide
  have hvmatch : ({ u with cells := u.nextCells } : Universe).cellsMatch
      (vertLine r c) := by
    intro a ha b hb
    exact (nextCells_getD u hlen ha hb).trans
      (tick_cell_H u r c hmode hr1 hr2 hc1 hc2 hmatch a b ha hb)
  have hvlen : ({ u with cells := u.nextCells } : Universe).cells.length =
      ({ u with cells := u.nextCells } : Universe).width *
        ({ u with cells := u.nextCells } : Universe).height := by
    show u.nextCells.length = u.width * u.height
    rw [nextCells_length u, hlen]
  refine ⟨{ u with cells := u.nextCells }, tick_eq_ok u hne, hvmatch, ?_⟩
  refine ⟨_, tick_eq_ok { u with cells := u.nextCells } hne, ?_⟩
  show ({ u with cells := u.nextCells } : Universe).nextCells = u.cells
  apply eq_of_getD_grid _ _ u.width u.height ?_ hlen
  · intro a ha b hb
    have h1 : ({ u with cells := u.nextCells } : Universe).nextCells.getD
        (({ u with cells := u.nextCells } : Universe).get_index a b) Cell.Dead =
        tickRule
          (({ u with cells := u.nextCells } : Universe).cells.getD
            (({ u with cells := u.nextCells } : Universe).get_index a b) Cell.Dead)
          (({ u with cells := u.nextCells } : Universe).live_neighbor_count a b) :=
      nextCells_getD { u with cells := u.nextCells } hvlen ha hb
    have h2 := tick_cell_V { u with cells := u.nextCells } r c hmode hr1 hr2 hc1 hc2
      hvmatch a b ha hb
    have h3 := hmatch a ha b hb
    exact (h1.trans h2).trans h3.symm
  · show ({ u with cells := u.nextCells } : Universe).nextCells.length = u.width * u.height
    rw [nextCells_length]
    exact hvlen

/-- Witness for C8 on the concrete 5×5 `Wrap` blinker. -/
theorem blinker_oscillates_witness :
    uBlinkH.edge_mode = .Wrap ∧
    uBlinkH.cells.length = uBlinkH.width * uBlinkH.height ∧
    uBlinkH.cellsMatch (horizLine 2 2) ∧
    ∃ v, uBlinkH.tick = .ok v ∧ v.cellsMatch (vertLine 2 2) ∧
      ∃ u2, v.tick = .ok u2 ∧ u2.cells = uBlinkH.cells :=
  ⟨rfl, by decide, by decide,
    blinker_oscillates uBlinkH 2 2 rfl (by decide) (by decide) (by decide)
      (by decide) (by decide) (by decide)⟩

end GoL
